import Mathlib

/-!
Verification of the `mplutils` fixed-axes layout engine
(`src/mplutils/_layout.py`) against its natural-language specification.

All numeric quantities are modelled as exact rationals (`ℚ`); matplotlib
objects are modelled structurally: an axes' relative position is a bounding
box of rationals, a figure carries its physical size in inches plus the
relative positions of its panels, a `SubplotSpec` carries the identity of
its owning `GridSpec` (object identity is modelled by a numeric id), the
grid shape, and the linear cell indices `num1`/`num2`.  Fallible Python
code (functions that `raise`) is modelled with `Except LayoutError`.
-/

namespace MplUtils

/-- Errors raised by the layout module.  Each constructor corresponds to one
`raise` site (or failing `assert`) in `_layout.py`. -/
inductive LayoutError where
  /-- "axes not part of a GridSpec, this wont work" -/
  | noSubplotSpec
  /-- the failing `assert subplotspecs` when no non-colorbar axes exist -/
  | emptySubplotSpecs
  /-- "Multiple GridSpecs in figure, this wont work" -/
  | multipleGridSpecs
  /-- "GridSpec too fancy for me" (`num1 != num2`) -/
  | fancyGridSpec
  /-- `_process_marginslike_arg`: "arg has invalid length" -/
  | invalidMarginsLength
  /-- `_process_rowcol_args`: "must be scalar or of length n" -/
  | invalidRowcolLength
  /-- `_apply`: "Parameters result in a figure that is too wide" -/
  | figureTooWide
deriving DecidableEq

/-- The four cardinal colorbar locations returned by
`_get_colorbar_location` and stored in `FixedAxesLayoutEngine._Colorbar`. -/
inductive Location where
  | left
  | right
  | top
  | bottom
deriving DecidableEq

/-- `Quadrants` NamedTuple: (top, right, bottom, left) values. -/
structure Quadrants (α : Type) where
  top : α
  right : α
  bottom : α
  left : α
deriving DecidableEq

abbrev QuadrantsQ := Quadrants ℚ

/-- `Area` NamedTuple: (width, height) values. -/
structure Area (α : Type) where
  width : α
  height : α
deriving DecidableEq

abbrev AreaQ := Area ℚ

/-- `Quadrants.__neg__`. -/
def Quadrants.negQ (q : QuadrantsQ) : QuadrantsQ :=
  ⟨-q.top, -q.right, -q.bottom, -q.left⟩

/-- `Quadrants.__sub__` for a `Quadrants` right operand (elementwise). -/
def Quadrants.subQ (q r : QuadrantsQ) : QuadrantsQ :=
  ⟨q.top - r.top, q.right - r.right, q.bottom - r.bottom, q.left - r.left⟩

/-- `Quadrants.__sub__` for a scalar right operand (broadcast). -/
def Quadrants.subScalar (q : QuadrantsQ) (v : ℚ) : QuadrantsQ :=
  ⟨q.top - v, q.right - v, q.bottom - v, q.left - v⟩

/-- `Quadrants.__rsub__`: the source returns `self - val`. -/
def Quadrants.rsub (q : QuadrantsQ) (v : ℚ) : QuadrantsQ :=
  q.subScalar v

/-- `Quadrants.__truediv__` for a scalar right operand (broadcast). -/
def Quadrants.divScalar (q : QuadrantsQ) (v : ℚ) : QuadrantsQ :=
  ⟨q.top / v, q.right / v, q.bottom / v, q.left / v⟩

/-- `Quadrants.__rtruediv__`: the source returns `self / val`. -/
def Quadrants.rdiv (q : QuadrantsQ) (v : ℚ) : QuadrantsQ :=
  q.divScalar v

/-- `Quadrants.__floordiv__` for a scalar right operand; Python float
floor-division is `floor (a / b)`. -/
def Quadrants.fdivScalar (q : QuadrantsQ) (v : ℚ) : QuadrantsQ :=
  ⟨(⌊q.top / v⌋ : ℚ), (⌊q.right / v⌋ : ℚ), (⌊q.bottom / v⌋ : ℚ), (⌊q.left / v⌋ : ℚ)⟩

/-- `Quadrants.__rfloordiv__`: the source returns `self // val`. -/
def Quadrants.rfdiv (q : QuadrantsQ) (v : ℚ) : QuadrantsQ :=
  q.fdivScalar v

/-- `Quadrants.__mul__` with a scalar (broadcast). -/
def Quadrants.mulScalar (q : QuadrantsQ) (v : ℚ) : QuadrantsQ :=
  ⟨q.top * v, q.right * v, q.bottom * v, q.left * v⟩

/-- `Area.__sub__` for a scalar right operand (broadcast). -/
def Area.subScalar (a : AreaQ) (v : ℚ) : AreaQ :=
  ⟨a.width - v, a.height - v⟩

/-- `Area.__rsub__`: the source returns `self - val`. -/
def Area.rsub (a : AreaQ) (v : ℚ) : AreaQ :=
  a.subScalar v

/-- `Area.__truediv__` for a scalar right operand (broadcast). -/
def Area.divScalar (a : AreaQ) (v : ℚ) : AreaQ :=
  ⟨a.width / v, a.height / v⟩

/-- `Area.__rtruediv__`: the source returns `self / val`. -/
def Area.rdiv (a : AreaQ) (v : ℚ) : AreaQ :=
  a.divScalar v

/-- `PTS_PER_INCH`. -/
def ptsPerInch : ℚ := 72

/-- A matplotlib `Bbox` with rational coordinates. -/
structure BboxQ where
  x0 : ℚ
  y0 : ℚ
  x1 : ℚ
  y1 : ℚ
deriving DecidableEq

/-- `Bbox.width`. -/
def BboxQ.width (b : BboxQ) : ℚ := b.x1 - b.x0

/-- `Bbox.height`. -/
def BboxQ.height (b : BboxQ) : ℚ := b.y1 - b.y0

/-- Minimum of a list of rationals (`np.min`); `0` on the empty list, which
never occurs at the call sites. -/
def listMin : List ℚ → ℚ
  | [] => 0
  | x :: xs => xs.foldl min x

/-- Maximum of a list of rationals (`np.max`); `0` on the empty list. -/
def listMax : List ℚ → ℚ
  | [] => 0
  | x :: xs => xs.foldl max x

theorem foldl_min_le_self (l : List ℚ) (a : ℚ) : l.foldl min a ≤ a := by
  induction l generalizing a with
  | nil => exact le_refl a
  | cons x xs ih =>
      exact le_trans (ih (min a x)) (min_le_left a x)

theorem foldl_min_le_mem (l : List ℚ) (a x : ℚ) (hx : x ∈ l) :
    l.foldl min a ≤ x := by
  induction l generalizing a with
  | nil => cases hx
  | cons y ys ih =>
      rcases List.mem_cons.mp hx with h | h
      · subst h
        exact le_trans (foldl_min_le_self ys (min a x)) (min_le_right a x)
      · exact ih (min a y) h

theorem foldl_min_eq_or_mem (l : List ℚ) (a : ℚ) :
    l.foldl min a = a ∨ l.foldl min a ∈ l := by
  induction l generalizing a with
  | nil => exact Or.inl rfl
  | cons x xs ih =>
      rcases ih (min a x) with h | h
      · rcases min_cases a x with ⟨hm, _⟩ | ⟨hm, _⟩
        · exact Or.inl (by rw [List.foldl_cons, h, hm])
        · exact Or.inr (by rw [List.foldl_cons, h, hm]; exact List.mem_cons_self x xs)
      · exact Or.inr (List.mem_cons_of_mem x h)

theorem listMin_le (l : List ℚ) (x : ℚ) (hx : x ∈ l) : listMin l ≤ x := by
  cases l with
  | nil => cases hx
  | cons y ys =>
      rcases List.mem_cons.mp hx with h | h
      · subst h; exact foldl_min_le_self ys x
      · exact foldl_min_le_mem ys y x h

theorem listMin_mem (l : List ℚ) (h : l ≠ []) : listMin l ∈ l := by
  cases l with
  | nil => exact absurd rfl h
  | cons y ys =>
      rcases foldl_min_eq_or_mem ys y with h' | h'
      · rw [listMin, h']; exact List.mem_cons_self y ys
      · exact List.mem_cons_of_mem y h'

/-- `matplotlib.transforms.Bbox.union` over a list of boxes. -/
def bboxUnion (l : List BboxQ) : BboxQ :=
  ⟨listMin (l.map BboxQ.x0), listMin (l.map BboxQ.y0),
   listMax (l.map BboxQ.x1), listMax (l.map BboxQ.y1)⟩

theorem bboxUnion_singleton (b : BboxQ) : bboxUnion [b] = b := rfl

/-- Center x-coordinate of a box: `bb.x0 + bb.width / 2`. -/
def bboxCx (b : BboxQ) : ℚ := b.x0 + b.width / 2

/-- Center y-coordinate of a box: `bb.y0 + bb.height / 2`. -/
def bboxCy (b : BboxQ) : ℚ := b.y0 + b.height / 2

/-- The horizontal offset `dx = cx - px` computed in `_get_colorbar_location`. -/
def cbDx (cax : BboxQ) (parents : List BboxQ) : ℚ :=
  bboxCx cax - bboxCx (bboxUnion parents)

/-- The vertical offset `dy = cy - py` computed in `_get_colorbar_location`. -/
def cbDy (cax : BboxQ) (parents : List BboxQ) : ℚ :=
  bboxCy cax - bboxCy (bboxUnion parents)

/-- `_get_colorbar_location`: classify the side of a colorbar axes relative
to the union of its parent axes by comparing center offsets. -/
def getColorbarLocation (cax : BboxQ) (parents : List BboxQ) : Location :=
  let dx := cbDx cax parents
  let dy := cbDy cax parents
  if |dx| > |dy| then (if 0 < dx then .right else .left)
  else (if 0 < dy then .top else .bottom)

/-- Variant of `getColorbarLocation` with the branching written out flat;
`cbDx`/`cbDy` are the `dx`/`dy` locals of the source. -/
theorem getColorbarLocation_def (cax : BboxQ) (parents : List BboxQ) :
    getColorbarLocation cax parents =
      if |cbDx cax parents| > |cbDy cax parents| then
        (if 0 < cbDx cax parents then .right else .left)
      else (if 0 < cbDy cax parents then .top else .bottom) := rfl

/-- Margins-like argument: a bare scalar or an array (`np.asarray` result). -/
inductive MarginsArg (α : Type) where
  | scalar (a : α)
  | arr (l : List α)

/-- `_process_marginslike_arg`: normalize a margins-like argument into a
`Quadrants`, raising `ValueError` for unsupported lengths. -/
def processMarginslikeArg {α : Type} : MarginsArg α → Except LayoutError (Quadrants α)
  | .scalar a => .ok ⟨a, a, a, a⟩
  | .arr l =>
      match l with
      | [a] => .ok ⟨a, a, a, a⟩
      | [a, b] => .ok ⟨a, b, a, b⟩
      | [a, b, c] => .ok ⟨a, b, c, b⟩
      | [a, b, c, d] => .ok ⟨a, b, c, d⟩
      | _ => .error .invalidMarginsLength

/-- A matplotlib `SubplotSpec`: the identity (`gs`) and shape of its owning
`GridSpec`, and the linear start/end cell indices `num1`/`num2`. -/
structure SubplotSpecM where
  gs : ℕ
  gsNrows : ℕ
  gsNcols : ℕ
  num1 : ℕ
  num2 : ℕ
deriving DecidableEq

/-- A matplotlib `Axes` as seen by the grid extractor: an identity, the
colorbar tag (`hasattr(ax, "_colorbar")`), and its optional `SubplotSpec`. -/
structure AxesM where
  id : ℕ
  isColorbar : Bool
  subplotspec : Option SubplotSpecM
deriving DecidableEq

/-- The `subplotspecs` dict construction in `_get_sorted_axes_grid`: pair
each non-colorbar axes with its `SubplotSpec`, raising if one is missing. -/
def collectSpecs : List AxesM → Except LayoutError (List (AxesM × SubplotSpecM))
  | [] => .ok []
  | a :: rest =>
      match a.subplotspec with
      | none => .error .noSubplotSpec
      | some s => (collectSpecs rest).map (fun l => (a, s) :: l)

/-- The per-`SubplotSpec` checks in `_get_sorted_axes_grid`: same `GridSpec`
identity as the first axes' spec, and `num1 == num2`. -/
def checkSpecs (gs0 : ℕ) : List (AxesM × SubplotSpecM) → Except LayoutError Unit
  | [] => .ok ()
  | (_, s) :: rest =>
      if s.gs ≠ gs0 then .error .multipleGridSpecs
      else if s.num1 ≠ s.num2 then .error .fancyGridSpec
      else checkSpecs gs0 rest

/-- The cell-filling loop of `_get_sorted_axes_grid`: iterate over all axes
and store a match at the cell; a later match overwrites an earlier one.
`SubplotSpec` equality against `gridspec[row, col]` compares the `GridSpec`
identity and both cell indices. -/
def cellLookup (specs : List (AxesM × SubplotSpecM)) (gs0 num : ℕ) : Option AxesM :=
  specs.foldl
    (fun acc p =>
      if p.2.gs = gs0 ∧ p.2.num1 = num ∧ p.2.num2 = num then some p.1 else acc)
    none

/-- The `axs_unordered` filter of `_get_sorted_axes_grid`: all axes that are
not colorbar axes. -/
def nonColorbarAxes (axs : List AxesM) : List AxesM :=
  axs.filter (fun a => !a.isColorbar)

/-- `FixedAxesLayoutEngine._get_sorted_axes_grid`: reconstruct the
(nrows, ncols) grid of non-colorbar axes from their shared `GridSpec`. -/
def getSortedAxesGrid (axsAll : List AxesM) :
    Except LayoutError (List (List (Option AxesM))) :=
  let axsUnordered := nonColorbarAxes axsAll
  match collectSpecs axsUnordered with
  | .error e => .error e
  | .ok [] => .error .emptySubplotSpecs
  | .ok (specs@((_, s0) :: _)) =>
      match checkSpecs s0.gs specs with
      | .error e => .error e
      | .ok _ =>
          .ok ((List.range s0.gsNrows).map (fun row =>
            (List.range s0.gsNcols).map (fun col =>
              cellLookup specs s0.gs (row * s0.gsNcols + col))))

/-- A panel's relative position as stored by `Axes.set_position`:
origin and extent as fractions of the figure size. -/
structure PanelPos where
  x0 : ℚ
  y0 : ℚ
  w : ℚ
  h : ℚ
deriving DecidableEq

/-- The figure state the margin operations act on: physical size in inches
plus the relative positions of the (non-colorbar) panels. -/
structure FigState where
  figsize : AreaQ
  panels : List PanelPos
deriving DecidableEq

/-- `_get_axes_position_inch`: the panel box scaled to inches. -/
def panelPosInch (fs : AreaQ) (p : PanelPos) : BboxQ :=
  ⟨p.x0 * fs.width, p.y0 * fs.height,
   (p.x0 + p.w) * fs.width, (p.y0 + p.h) * fs.height⟩

/-- `_set_axes_position_inch`: store an absolute box as fractions of the
figure size. -/
def setAxesPositionInch (fs : AreaQ) (x0 y0 w h : ℚ) : PanelPos :=
  ⟨x0 / fs.width, y0 / fs.height, w / fs.width, h / fs.height⟩

/-- `FixedAxesLayoutEngine._add_margins_inch`: grow the figure by the
horizontal/vertical margin sums and shift every panel by the bottom-left
margins, re-expressing each panel's inch box in the new figure size. -/
def addMarginsInch (mg : QuadrantsQ) (s : FigState) : FigState :=
  let bboxes := s.panels.map (panelPosInch s.figsize)
  let fsNew : AreaQ :=
    ⟨s.figsize.width + mg.left + mg.right, s.figsize.height + mg.top + mg.bottom⟩
  { figsize := fsNew
    panels := bboxes.map (fun b =>
      setAxesPositionInch fsNew (b.x0 + mg.left) (b.y0 + mg.bottom) b.width b.height) }

/-- Round half to even on rationals, as Python's `round` does on the exact
value of a float. -/
def roundHalfEven (q : ℚ) : ℤ :=
  let f := ⌊q⌋
  let r := q - f
  if r < 1 / 2 then f
  else if 1 / 2 < r then f + 1
  else if f % 2 = 0 then f else f + 1

/-- `round(x, 5)`: round to 5 decimal digits. -/
def round5 (q : ℚ) : ℚ := (roundHalfEven (q * 100000) : ℚ) / 100000

/-- The post-loop width check of `FixedAxesLayoutEngine._apply`: raise the
size-constraint `ValueError` when the rounded width exceeds `max_figwidth`. -/
def applyWidthCheck (maxFigwidth : ℚ) (s : FigState) : Except LayoutError FigState :=
  if round5 s.figsize.width > maxFigwidth then .error .figureTooWide else .ok s

/-- The solver loop of `_apply`: the `while run < nruns` loop performs
exactly `nruns` passes (each pass abstracted as `step`), then the width
check runs on the resulting figure. -/
def applySolve (step : FigState → FigState) (nruns : ℕ) (maxFigwidth : ℚ)
    (s0 : FigState) : Except LayoutError FigState :=
  applyWidthCheck maxFigwidth (step^[nruns] s0)

/-- Row/col-like argument: a bare scalar or an array (`np.asarray` result). -/
inductive RowcolArg (α : Type) where
  | scalar (a : α)
  | arr (l : List α)

/-- `FixedAxesLayoutEngine._process_rowcol_args`: a scalar is replicated `n`
times; a non-scalar array must have length `n - 1` and is returned
unchanged, else `ValueError`. -/
def processRowcolArgs {α : Type} (vals : RowcolArg α) (n : ℤ) :
    Except LayoutError (List α) :=
  match vals with
  | .scalar v => .ok (List.replicate n.toNat v)
  | .arr l => if (l.length : ℤ) = n - 1 then .ok l else .error .invalidRowcolLength

/-- The desired column-pad processing in `_apply` (guarded by `ncols > 1`):
`_process_rowcol_args(col_pad_pts, ncols - 1) / PTS_PER_INCH`. -/
def applyDesiredColpads (colPadPts : RowcolArg ℚ) (ncols : ℕ) :
    Except LayoutError (List ℚ) :=
  (processRowcolArgs colPadPts ((ncols : ℤ) - 1)).map
    (fun l => l.map (fun v => v / ptsPerInch))

/-- The label-ignoring flag processing in `_get_colpads_inch`:
`_process_rowcol_args(ignore_labels, ncols)`. -/
def colpadsIgnoreFlags (ignoreLabels : RowcolArg Bool) (ncols : ℕ) :
    Except LayoutError (List Bool) :=
  processRowcolArgs ignoreLabels (ncols : ℤ)

/-- `FixedAxesLayoutEngine._get_margins_inch`: process the label-ignoring
flags, select per side the label-free grid (`bboxes`) when the flag ignores
labels and the tight-bbox grid (`tbboxes`) otherwise, then take per side the
minimum distance to the corresponding figure edge over the bordering row or
column.  Grids are indexed `grid row col` with row 0 at the top. -/
def getMarginsInch {m n : ℕ} (ignoreArg : MarginsArg Bool)
    (bboxes tbboxes : Fin (m + 1) → Fin (n + 1) → BboxQ) (figsize : AreaQ) :
    Except LayoutError QuadrantsQ :=
  match processMarginslikeArg ignoreArg with
  | .error e => .error e
  | .ok ignore =>
      let topBoxes := (List.finRange (n + 1)).map
        (fun j => if ignore.top then bboxes 0 j else tbboxes 0 j)
      let rightBoxes := (List.finRange (m + 1)).map
        (fun i => if ignore.right then bboxes i (Fin.last n) else tbboxes i (Fin.last n))
      let bottomBoxes := (List.finRange (n + 1)).map
        (fun j => if ignore.bottom then bboxes (Fin.last m) j else tbboxes (Fin.last m) j)
      let leftBoxes := (List.finRange (m + 1)).map
        (fun i => if ignore.left then bboxes i 0 else tbboxes i 0)
      .ok ⟨listMin (topBoxes.map (fun b => figsize.height - b.y1)),
           listMin (rightBoxes.map (fun b => figsize.width - b.x1)),
           listMin (bottomBoxes.map (fun b => b.y0)),
           listMin (leftBoxes.map (fun b => b.x0))⟩

/-- The derived part of `FixedAxesLayoutEngine._Colorbar`: location in the
figure, thickness and pad in inches. -/
structure ColorbarRec where
  location : Location
  thickness : ℚ
  pad : ℚ
deriving DecidableEq

/-- The repositioning step of `FixedAxesLayoutEngine._update_colorbars` for
one colorbar: place the colorbar axes against its parent on the recorded
side, converting the recorded inch thickness/pad into figure fractions. -/
def updateColorbarPos (fs : AreaQ) (parent : BboxQ) (cb : ColorbarRec) : BboxQ :=
  match cb.location with
  | .left =>
      let pad := cb.pad / fs.width
      let th := cb.thickness / fs.width
      ⟨parent.x0 - pad - th, parent.y0,
       parent.x0 - pad - th + th, parent.y0 + parent.height⟩
  | .right =>
      let pad := cb.pad / fs.width
      let th := cb.thickness / fs.width
      ⟨parent.x1 + pad, parent.y0, parent.x1 + pad + th, parent.y0 + parent.height⟩
  | .top =>
      let pad := cb.pad / fs.height
      let th := cb.thickness / fs.height
      ⟨parent.x0, parent.y1 + pad, parent.x0 + parent.width, parent.y1 + pad + th⟩
  | .bottom =>
      let pad := cb.pad / fs.height
      let th := cb.thickness / fs.height
      ⟨parent.x0, parent.y0 - pad - th, parent.x0 + parent.width,
       parent.y0 - pad - th + th⟩

/-- The per-colorbar body of `FixedAxesLayoutEngine._get_list_of_colorbars`:
re-derive (location, thickness in inches, pad in inches) from the current
geometry of the colorbar axes and its parent. -/
def deriveColorbarRec (fs : AreaQ) (caxPos parentPos : BboxQ) :
    Location × ℚ × ℚ :=
  let location := getColorbarLocation caxPos [parentPos]
  match location with
  | .left => (location, caxPos.width * fs.width, (parentPos.x0 - caxPos.x1) * fs.width)
  | .right => (location, caxPos.width * fs.width, (caxPos.x0 - parentPos.x1) * fs.width)
  | .top => (location, caxPos.height * fs.height, (caxPos.y0 - parentPos.y1) * fs.height)
  | .bottom => (location, caxPos.height * fs.height, (parentPos.y0 - caxPos.y1) * fs.height)

/-- The mutable per-engine state used by `FixedAxesLayoutEngine.execute`:
the re-entrancy flag, the transient caches, and the figure (modelled by its
axes list, the state `execute` reads). -/
structure EngineState where
  executeInProgress : Bool
  axesGrid : Option (List (List (Option AxesM)))
  colorbars : List AxesM
  fig : List AxesM
deriving DecidableEq

/-- `FixedAxesLayoutEngine.execute`: return immediately when a solve is in
progress; otherwise set the flag, compute the transient caches (the grid
extraction may raise, outside the `try`), run `_apply` (abstracted as
`applyFn`, which may raise), and in the `finally` clear the flag and both
caches.  The pair returned is (resulting engine state, outcome). -/
def executeEngine (applyFn : List AxesM → Except LayoutError (List AxesM))
    (es : EngineState) : EngineState × Except LayoutError Unit :=
  if es.executeInProgress then (es, .ok ())
  else
    let es1 := { es with executeInProgress := true }
    match getSortedAxesGrid es1.fig with
    | .error e => (es1, .error e)
    | .ok grid =>
        let es2 := { es1 with
          axesGrid := some grid
          colorbars := es1.fig.filter (fun a => a.isColorbar) }
        match applyFn es2.fig with
        | .ok fig2 =>
            ({ es2 with
                fig := fig2
                executeInProgress := false
                axesGrid := none
                colorbars := [] }, .ok ())
        | .error e =>
            ({ es2 with
                executeInProgress := false
                axesGrid := none
                colorbars := [] }, .error e)

/-- Helper: mapping a pointwise-identity function over a list is the
identity. -/
theorem list_map_id_of_eq {α : Type} (f : α → α) (l : List α)
    (h : ∀ a, f a = a) : l.map f = l := by
  induction l with
  | nil => rfl
  | cons x xs ih => simp [h, ih]

/-- C1: `applySolve` (the `nruns`-pass loop of `_apply` followed by its
width check) raises the size-constraint error exactly when the resulting
figure width, rounded to 5 decimal digits, strictly exceeds
`max_figwidth`; otherwise it returns the resulting figure unchanged, so
no oversized figure is silently accepted. -/
theorem solve_width_check_iff (step : FigState → FigState) (nruns : ℕ)
    (maxw : ℚ) (s0 : FigState) :
    (applySolve step nruns maxw s0 = .error .figureTooWide ↔
      maxw < round5 ((step^[nruns] s0).figsize.width)) ∧
    (applySolve step nruns maxw s0 = .ok (step^[nruns] s0) ↔
      round5 ((step^[nruns] s0).figsize.width) ≤ maxw) := by
  unfold applySolve applyWidthCheck
  rcases lt_or_ge maxw (round5 ((step^[nruns] s0).figsize.width)) with h | h
  · rw [if_pos h]
    constructor
    · exact ⟨fun _ => h, fun _ => rfl⟩
    · constructor
      · intro hco; cases hco
      · intro hle; exact absurd h (not_lt.mpr hle)
  · rw [if_neg (not_lt.mpr h)]
    constructor
    · constructor
      · intro hco; cases hco
      · intro hlt; exact absurd hlt (not_lt.mpr h)
    · exact ⟨fun _ => h, fun _ => rfl⟩

/-- C3: `_get_colorbar_location` compares the center-offset vector from
the parent (union) box to the colorbar box: a strictly larger horizontal
magnitude yields right/left by the sign of `dx`, a strictly larger
vertical magnitude yields top/bottom by the sign of `dy`; in particular a
parent centered at (0.5, 0.5) with the colorbar centered at (0.9, 0.5)
classifies as right, and at (0.5, 0.9) as top. -/
theorem colorbar_location_classification :
    (∀ (cax : BboxQ) (ps : List BboxQ),
      (|cbDx cax ps| > |cbDy cax ps| → 0 < cbDx cax ps →
        getColorbarLocation cax ps = .right) ∧
      (|cbDx cax ps| > |cbDy cax ps| → cbDx cax ps ≤ 0 →
        getColorbarLocation cax ps = .left) ∧
      (|cbDy cax ps| > |cbDx cax ps| → 0 < cbDy cax ps →
        getColorbarLocation cax ps = .top) ∧
      (|cbDy cax ps| > |cbDx cax ps| → cbDy cax ps ≤ 0 →
        getColorbarLocation cax ps = .bottom)) ∧
    getColorbarLocation ⟨17/20, 9/20, 19/20, 11/20⟩ [⟨1/4, 1/4, 3/4, 3/4⟩] = .right ∧
    getColorbarLocation ⟨9/20, 17/20, 11/20, 19/20⟩ [⟨1/4, 1/4, 3/4, 3/4⟩] = .top := by
  refine ⟨fun cax ps => ⟨?_, ?_, ?_, ?_⟩, ?_, ?_⟩
  · intro h1 h2
    rw [getColorbarLocation_def, if_pos h1, if_pos h2]
  · intro h1 h2
    rw [getColorbarLocation_def, if_pos h1, if_neg (not_lt.mpr h2)]
  · intro h1 h2
    rw [getColorbarLocation_def, if_neg (by linarith), if_pos h2]
  · intro h1 h2
    rw [getColorbarLocation_def, if_neg (by linarith), if_neg (not_lt.mpr h2)]
  · have hdx : cbDx ⟨17/20, 9/20, 19/20, 11/20⟩ [⟨1/4, 1/4, 3/4, 3/4⟩] = 2/5 := by
      norm_num [cbDx, bboxCx, bboxUnion, listMin, listMax, BboxQ.width]
    have hdy : cbDy ⟨17/20, 9/20, 19/20, 11/20⟩ [⟨1/4, 1/4, 3/4, 3/4⟩] = 0 := by
      norm_num [cbDy, bboxCy, bboxUnion, listMin, listMax, BboxQ.height]
    rw [getColorbarLocation_def, hdx, hdy, abs_zero,
      abs_of_pos (by norm_num : (0 : ℚ) < 2/5),
      if_pos (by norm_num : (0 : ℚ) < 2/5), if_pos (by norm_num : (0 : ℚ) < 2/5)]
  · have hdx : cbDx ⟨9/20, 17/20, 11/20, 19/20⟩ [⟨1/4, 1/4, 3/4, 3/4⟩] = 0 := by
      norm_num [cbDx, bboxCx, bboxUnion, listMin, listMax, BboxQ.width]
    have hdy : cbDy ⟨9/20, 17/20, 11/20, 19/20⟩ [⟨1/4, 1/4, 3/4, 3/4⟩] = 2/5 := by
      norm_num [cbDy, bboxCy, bboxUnion, listMin, listMax, BboxQ.height]
    rw [getColorbarLocation_def, hdx, hdy, abs_zero,
      abs_of_pos (by norm_num : (0 : ℚ) < 2/5),
      if_neg (by norm_num : ¬((0 : ℚ) > 2/5)),
      if_pos (by norm_num : (0 : ℚ) < 2/5)]

/-- C4 (code bug): Python evaluates `s - q` via `Quadrants.__rsub__`
(resp. `Area.__rsub__`, and analogously `__rtruediv__`), which the source
implements as `self - val` / `self / val`; the result is the components
minus (divided by) the scalar, not the scalar minus (divided by) the
components that scalar broadcasting requires.  Evaluated at concrete
inputs: `5 - Quadrants(1, 2, 3, 4)` yields `(-4, -3, -2, -1)`, not
`(4, 3, 2, 1)`; `2 / Quadrants(1, 2, 4, 8)` yields `(1/2, 1, 2, 4)`,
not `(2, 1, 1/2, 1/4)`; `5 - Area(1, 2)` yields `(-4, -3)`, not
`(4, 3)`. -/
theorem quadrants_scalar_left_ops_bug :
    Quadrants.rsub ⟨1, 2, 3, 4⟩ 5 = (⟨-4, -3, -2, -1⟩ : QuadrantsQ) ∧
    Quadrants.rsub ⟨1, 2, 3, 4⟩ 5 ≠ (⟨4, 3, 2, 1⟩ : QuadrantsQ) ∧
    Quadrants.rdiv ⟨1, 2, 4, 8⟩ 2 = (⟨1/2, 1, 2, 4⟩ : QuadrantsQ) ∧
    Quadrants.rdiv ⟨1, 2, 4, 8⟩ 2 ≠ (⟨2, 1, 1/2, 1/4⟩ : QuadrantsQ) ∧
    Quadrants.rfdiv ⟨1, 2, 4, 8⟩ 3 = (⟨0, 0, 1, 2⟩ : QuadrantsQ) ∧
    Area.rsub ⟨1, 2⟩ 5 = (⟨-4, -3⟩ : AreaQ) ∧
    Area.rsub ⟨1, 2⟩ 5 ≠ (⟨4, 3⟩ : AreaQ) ∧
    Area.rdiv ⟨1, 2⟩ 2 = (⟨1/2, 1⟩ : AreaQ) ∧
    Area.rdiv ⟨1, 2⟩ 2 ≠ (⟨2, 1⟩ : AreaQ) := by
  refine ⟨?_, ?_, ?_, ?_, ?_, ?_, ?_, ?_, ?_⟩ <;>
    norm_num [Quadrants.rsub, Quadrants.subScalar, Quadrants.rdiv,
      Quadrants.divScalar, Quadrants.rfdiv, Quadrants.fdivScalar,
      Area.rsub, Area.subScalar, Area.rdiv, Area.divScalar,
      Quadrants.mk.injEq, Area.mk.injEq]

/-- C5: `_process_marginslike_arg` broadcasts a scalar or length-1 array
to all four margins, maps a length-2 array `(a, b)` to top = bottom = a
and right = left = b, maps length-3 and length-4 arrays positionally as
`(top, right+left, bottom)` and `(top, right, bottom, left)`, and raises
the validation error for every other length. -/
theorem marginslike_normalization :
    (∀ (a : ℚ), processMarginslikeArg (.scalar a) = .ok ⟨a, a, a, a⟩) ∧
    (∀ (a : ℚ), processMarginslikeArg (.arr [a]) = .ok ⟨a, a, a, a⟩) ∧
    (∀ (a b : ℚ), processMarginslikeArg (.arr [a, b]) = .ok ⟨a, b, a, b⟩) ∧
    (∀ (a b c : ℚ), processMarginslikeArg (.arr [a, b, c]) = .ok ⟨a, b, c, b⟩) ∧
    (∀ (a b c d : ℚ),
      processMarginslikeArg (.arr [a, b, c, d]) = .ok ⟨a, b, c, d⟩) ∧
    (∀ (l : List ℚ), l.length = 0 ∨ 5 ≤ l.length →
      processMarginslikeArg (.arr l) = .error .invalidMarginsLength) := by
  refine ⟨fun a => rfl, fun a => rfl, fun a b => rfl, fun a b c => rfl,
    fun a b c d => rfl, fun l hl => ?_⟩
  match l with
  | [] => rfl
  | [a] => simp at hl
  | [a, b] => simp at hl
  | [a, b, c] => simp at hl
  | [a, b, c, d] => simp at hl
  | a :: b :: c :: d :: e :: rest => rfl

/-- Witness for C5: the length-5 array raises the validation error, and
the property applied at a scalar broadcast. -/
theorem marginslike_normalization_witness :
    (([1, 2, 3, 4, 5] : List ℚ).length = 0 ∨ 5 ≤ ([1, 2, 3, 4, 5] : List ℚ).length) ∧
    processMarginslikeArg (.arr ([1, 2, 3, 4, 5] : List ℚ)) =
      .error .invalidMarginsLength :=
  ⟨Or.inr (by norm_num),
   marginslike_normalization.2.2.2.2.2 [1, 2, 3, 4, 5] (Or.inr (by norm_num))⟩

/-- C9 (code bug): `execute` computes the axes grid after setting the
in-progress flag but outside the `try/finally`; when grid extraction
raises (here: the single panel has no `SubplotSpec`), the error
propagates with the flag left `True`, so every later invocation returns
immediately as a silent no-op, contrary to the claim that the flag is
false after every top-level invocation. -/
theorem execute_flag_stuck_on_extraction_error :
    executeEngine (fun f => .ok f) ⟨false, none, [], [⟨0, false, none⟩]⟩
      = (⟨true, none, [], [⟨0, false, none⟩]⟩, .error .noSubplotSpec) ∧
    (executeEngine (fun f => .ok f)
      ⟨false, none, [], [⟨0, false, none⟩]⟩).1.executeInProgress = true ∧
    (executeEngine (fun f => .ok f)
      ⟨true, none, [], [⟨0, false, none⟩]⟩
        = (⟨true, none, [], [⟨0, false, none⟩]⟩, .ok ())) := by
  refine ⟨rfl, rfl, rfl⟩

/-- C10: `_process_rowcol_args` replicates a scalar `n` times and accepts
a non-scalar array unchanged exactly when its length is `n - 1`;
consequently `_apply`, which passes `n = ncols - 1` for the desired
column pads, accepts a non-scalar `col_pad_pts` only at length
`ncols - 2`, while `_get_colpads_inch`, which passes `n = ncols` for the
per-boundary label-ignoring flags, accepts them at length `ncols - 1`. -/
theorem rowcol_args_processing :
    (∀ (v : ℚ) (n : ℕ),
      processRowcolArgs (.scalar v) (n : ℤ) = .ok (List.replicate n v)) ∧
    (∀ (l : List ℚ) (n : ℤ),
      processRowcolArgs (.arr l) n = .ok l ↔ (l.length : ℤ) = n - 1) ∧
    (∀ (l : List ℚ) (n : ℤ), (l.length : ℤ) ≠ n - 1 →
      processRowcolArgs (.arr l) n = .error .invalidRowcolLength) ∧
    (∀ (l : List ℚ) (ncols : ℕ), 2 ≤ ncols →
      ((∃ r, applyDesiredColpads (.arr l) ncols = .ok r) ↔
        l.length = ncols - 2)) ∧
    (∀ (l : List Bool) (ncols : ℕ), 1 ≤ ncols →
      ((∃ r, colpadsIgnoreFlags (.arr l) ncols = .ok r) ↔
        l.length = ncols - 1)) := by
  have harr : ∀ (α : Type) (l : List α) (n : ℤ),
      processRowcolArgs (.arr l) n =
        if (l.length : ℤ) = n - 1 then .ok l else .error .invalidRowcolLength :=
    fun α l n => rfl
  refine ⟨?_, ?_, ?_, ?_, ?_⟩
  · intro v n
    simp [processRowcolArgs]
  · intro l n
    rw [harr]
    constructor
    · intro h
      by_contra hne
      rw [if_neg hne] at h
      cases h
    · intro h
      rw [if_pos h]
  · intro l n h
    rw [harr, if_neg h]
  · intro l ncols hn
    unfold applyDesiredColpads
    rw [harr]
    constructor
    · intro ⟨r, hr⟩
      by_cases hc : (l.length : ℤ) = (ncols : ℤ) - 1 - 1
      · omega
      · rw [if_neg hc] at hr
        cases hr
    · intro h
      rw [if_pos (by omega)]
      exact ⟨l.map (fun v => v / ptsPerInch), rfl⟩
  · intro l ncols hn
    unfold colpadsIgnoreFlags
    rw [harr]
    constructor
    · intro ⟨r, hr⟩
      by_cases hc : (l.length : ℤ) = (ncols : ℤ) - 1
      · omega
      · rw [if_neg hc] at hr
        cases hr
    · intro h
      rw [if_pos (by omega)]
      exact ⟨l, rfl⟩

/-- Witness for C10: with 4 columns, a desired column-pad array of length
2 (= ncols - 2) is accepted, and a label-ignoring flag array of length 3
(= ncols - 1) is accepted. -/
theorem rowcol_args_processing_witness :
    (2 ≤ 4 ∧ (∃ r, applyDesiredColpads (.arr [(1 : ℚ), 2]) 4 = .ok r)) ∧
    (1 ≤ 4 ∧ (∃ r, colpadsIgnoreFlags (.arr [true, false, true]) 4 = .ok r)) :=
  ⟨⟨by norm_num,
    (rowcol_args_processing.2.2.2.1 [1, 2] 4 (by norm_num)).mpr (by norm_num)⟩,
   ⟨by norm_num,
    (rowcol_args_processing.2.2.2.2 [true, false, true] 4 (by norm_num)).mpr
      (by norm_num)⟩⟩

/-- Helper: membership characterization used for the margin minima. -/
theorem listMin_map_finRange_le {k : ℕ} (f : Fin (k + 1) → ℚ) (j : Fin (k + 1)) :
    listMin ((List.finRange (k + 1)).map f) ≤ f j :=
  listMin_le _ _ (List.mem_map_of_mem f (List.mem_finRange j))

/-- Helper: the minimum over a `finRange`-indexed list is attained. -/
theorem listMin_map_finRange_attained {k : ℕ} (f : Fin (k + 1) → ℚ) :
    ∃ j, listMin ((List.finRange (k + 1)).map f) = f j := by
  have hne : (List.finRange (k + 1)).map f ≠ [] := by
    simp [List.finRange]
  have hmem := listMin_mem _ hne
  rcases List.mem_map.mp hmem with ⟨j, _, hj⟩
  exact ⟨j, hj.symm⟩

/-- C2: `_get_margins_inch` computes the outer margin on each side as the
minimum distance to the corresponding figure edge over the panels
bordering that side (top over the first row as `figheight - y1`, right
over the last column as `figwidth - x1`, bottom over the last row as
`y0`, left over the first column as `x0`), each side reading the
label-free box grid when its label-ignoring flag is set and the
tight-bbox (label-including) grid otherwise. -/
theorem margins_are_side_minima {m n : ℕ} (ignoreArg : MarginsArg Bool)
    (bb tbb : Fin (m + 1) → Fin (n + 1) → BboxQ) (fs : AreaQ)
    (ig : Quadrants Bool)
    (hig : processMarginslikeArg ignoreArg = .ok ig) :
    ∃ mg, getMarginsInch ignoreArg bb tbb fs = .ok mg ∧
      ((∀ j, mg.top ≤ fs.height - (if ig.top then bb 0 j else tbb 0 j).y1) ∧
       (∃ j, mg.top = fs.height - (if ig.top then bb 0 j else tbb 0 j).y1)) ∧
      ((∀ i, mg.right ≤
          fs.width - (if ig.right then bb i (Fin.last n) else tbb i (Fin.last n)).x1) ∧
       (∃ i, mg.right =
          fs.width - (if ig.right then bb i (Fin.last n) else tbb i (Fin.last n)).x1)) ∧
      ((∀ j, mg.bottom ≤ (if ig.bottom then bb (Fin.last m) j else tbb (Fin.last m) j).y0) ∧
       (∃ j, mg.bottom = (if ig.bottom then bb (Fin.last m) j else tbb (Fin.last m) j).y0)) ∧
      ((∀ i, mg.left ≤ (if ig.left then bb i 0 else tbb i 0).x0) ∧
       (∃ i, mg.left = (if ig.left then bb i 0 else tbb i 0).x0)) := by
  unfold getMarginsInch
  rw [hig]
  dsimp only
  refine ⟨_, rfl, ?_, ?_, ?_, ?_⟩
  · simp only [List.map_map]
    exact ⟨fun j => listMin_map_finRange_le _ j, listMin_map_finRange_attained _⟩
  · simp only [List.map_map]
    exact ⟨fun i => listMin_map_finRange_le _ i, listMin_map_finRange_attained _⟩
  · simp only [List.map_map]
    exact ⟨fun j => listMin_map_finRange_le _ j, listMin_map_finRange_attained _⟩
  · simp only [List.map_map]
    exact ⟨fun i => listMin_map_finRange_le _ i, listMin_map_finRange_attained _⟩

/-- Witness for C2: a 1x1 grid with a concrete box, all flags considered
(`ignore_labels = False` scalar), evaluated through the theorem. -/
theorem margins_are_side_minima_witness :
    ∃ mg, getMarginsInch (m := 0) (n := 0) (.scalar false)
        (fun _ _ => ⟨1, 1, 2, 2⟩) (fun _ _ => ⟨1/2, 1/2, 5/2, 5/2⟩) ⟨4, 5⟩
        = .ok mg ∧
      ((∀ _ : Fin 1, mg.top ≤ (5 : ℚ) -
          (if false then (⟨1, 1, 2, 2⟩ : BboxQ) else ⟨1/2, 1/2, 5/2, 5/2⟩).y1) ∧
       (∃ _ : Fin 1, mg.top = (5 : ℚ) -
          (if false then (⟨1, 1, 2, 2⟩ : BboxQ) else ⟨1/2, 1/2, 5/2, 5/2⟩).y1)) ∧
      ((∀ _ : Fin 1, mg.right ≤ (4 : ℚ) -
          (if false then (⟨1, 1, 2, 2⟩ : BboxQ) else ⟨1/2, 1/2, 5/2, 5/2⟩).x1) ∧
       (∃ _ : Fin 1, mg.right = (4 : ℚ) -
          (if false then (⟨1, 1, 2, 2⟩ : BboxQ) else ⟨1/2, 1/2, 5/2, 5/2⟩).x1)) ∧
      ((∀ _ : Fin 1, mg.bottom ≤
          (if false then (⟨1, 1, 2, 2⟩ : BboxQ) else ⟨1/2, 1/2, 5/2, 5/2⟩).y0) ∧
       (∃ _ : Fin 1, mg.bottom =
          (if false then (⟨1, 1, 2, 2⟩ : BboxQ) else ⟨1/2, 1/2, 5/2, 5/2⟩).y0)) ∧
      ((∀ _ : Fin 1, mg.left ≤
          (if false then (⟨1, 1, 2, 2⟩ : BboxQ) else ⟨1/2, 1/2, 5/2, 5/2⟩).x0) ∧
       (∃ _ : Fin 1, mg.left =
          (if false then (⟨1, 1, 2, 2⟩ : BboxQ) else ⟨1/2, 1/2, 5/2, 5/2⟩).x0)) :=
  margins_are_side_minima (m := 0) (n := 0) (.scalar false)
    (fun _ _ => ⟨1, 1, 2, 2⟩) (fun _ _ => ⟨1/2, 1/2, 5/2, 5/2⟩) ⟨4, 5⟩
    ⟨false, false, false, false⟩ rfl

/-- C7: `_add_margins_inch` with margins `m` followed by `_add_margins_inch`
with `-m` (the negation operator of `Quadrants`) restores the original
figure size and every panel's original position exactly (hence within the
claimed 1e-5 tolerance, and hence the original margins), provided the
figure dimensions before and after adding `m` are nonzero. -/
theorem add_margins_roundtrip (mg : QuadrantsQ) (s : FigState)
    (hw : s.figsize.width ≠ 0) (hh : s.figsize.height ≠ 0)
    (hw2 : s.figsize.width + mg.left + mg.right ≠ 0)
    (hh2 : s.figsize.height + mg.top + mg.bottom ≠ 0) :
    addMarginsInch (Quadrants.negQ mg) (addMarginsInch mg s) = s := by
  obtain ⟨⟨w, h⟩, panels⟩ := s
  simp only [Area.mk.injEq] at hw hh hw2 hh2
  unfold addMarginsInch Quadrants.negQ
  simp only [List.map_map, FigState.mk.injEq, Area.mk.injEq]
  refine ⟨⟨by ring, by ring⟩, ?_⟩
  refine list_map_id_of_eq _ panels (fun p => ?_)
  obtain ⟨px, py, pw, ph⟩ := p
  simp only [Function.comp_apply, panelPosInch, setAxesPositionInch,
    BboxQ.width, BboxQ.height, PanelPos.mk.injEq]
  have hww : w + mg.left + mg.right + -mg.left + -mg.right = w := by ring
  have hhh : h + mg.top + mg.bottom + -mg.top + -mg.bottom = h := by ring
  refine ⟨?_, ?_, ?_, ?_⟩
  · rw [hww, div_eq_iff hw, div_mul_cancel₀ _ hw2]
    ring
  · rw [hhh, div_eq_iff hh, div_mul_cancel₀ _ hh2]
    ring
  · rw [hww, div_eq_iff hw]
    field_simp
    ring
  · rw [hhh, div_eq_iff hh]
    field_simp
    ring

/-- Witness for C7: a concrete 6x4 figure with one panel and margins
(1, 1, 1, 1) round-trips to the original state. -/
theorem add_margins_roundtrip_witness :
    addMarginsInch (Quadrants.negQ ⟨1, 1, 1, 1⟩)
      (addMarginsInch ⟨1, 1, 1, 1⟩
        ⟨⟨6, 4⟩, [⟨1/10, 1/10, 8/10, 8/10⟩]⟩)
      = ⟨⟨6, 4⟩, [⟨1/10, 1/10, 8/10, 8/10⟩]⟩ :=
  add_margins_roundtrip ⟨1, 1, 1, 1⟩ ⟨⟨6, 4⟩, [⟨1/10, 1/10, 8/10, 8/10⟩]⟩
    (by norm_num) (by norm_num) (by norm_num) (by norm_num)

/-- Helper: `deriveColorbarRec` once the side classification is known
to be right. -/
theorem deriveColorbarRec_of_right (fs : AreaQ) (cax par : BboxQ)
    (h : getColorbarLocation cax [par] = Location.right) :
    deriveColorbarRec fs cax par
      = (.right, cax.width * fs.width, (cax.x0 - par.x1) * fs.width) := by
  unfold deriveColorbarRec
  rw [h]

/-- Helper: `deriveColorbarRec` once the side classification is known
to be left. -/
theorem deriveColorbarRec_of_left (fs : AreaQ) (cax par : BboxQ)
    (h : getColorbarLocation cax [par] = Location.left) :
    deriveColorbarRec fs cax par
      = (.left, cax.width * fs.width, (par.x0 - cax.x1) * fs.width) := by
  unfold deriveColorbarRec
  rw [h]

/-- Helper: `deriveColorbarRec` once the side classification is known
to be top. -/
theorem deriveColorbarRec_of_top (fs : AreaQ) (cax par : BboxQ)
    (h : getColorbarLocation cax [par] = Location.top) :
    deriveColorbarRec fs cax par
      = (.top, cax.height * fs.height, (cax.y0 - par.y1) * fs.height) := by
  unfold deriveColorbarRec
  rw [h]

/-- Helper: `deriveColorbarRec` once the side classification is known
to be bottom. -/
theorem deriveColorbarRec_of_bottom (fs : AreaQ) (cax par : BboxQ)
    (h : getColorbarLocation cax [par] = Location.bottom) :
    deriveColorbarRec fs cax par
      = (.bottom, cax.height * fs.height, (par.y0 - cax.y1) * fs.height) := by
  unfold deriveColorbarRec
  rw [h]

/-- C8: repositioning a colorbar with `_update_colorbars` and then
re-deriving its record with the `_get_list_of_colorbars` geometry scan
returns exactly the recorded side, physical thickness and physical pad,
for every parent panel position and size (positive extents, positive
figure size, positive thickness, nonnegative pad). -/
theorem colorbar_record_preserved (fs : AreaQ) (par : BboxQ) (loc : Location)
    (th pad : ℚ) (hfw : 0 < fs.width) (hfh : 0 < fs.height)
    (hpw : par.x0 < par.x1) (hph : par.y0 < par.y1)
    (hth : 0 < th) (hpad : 0 ≤ pad) :
    deriveColorbarRec fs (updateColorbarPos fs par ⟨loc, th, pad⟩) par
      = (loc, th, pad) := by
  have hfw' : fs.width ≠ 0 := ne_of_gt hfw
  have hfh' : fs.height ≠ 0 := ne_of_gt hfh
  cases loc with
  | right =>
      have hcax : updateColorbarPos fs par ⟨.right, th, pad⟩ =
          ⟨par.x1 + pad / fs.width, par.y0,
           par.x1 + pad / fs.width + th / fs.width, par.y0 + par.height⟩ := rfl
      have hval : 0 < (par.x1 - par.x0) / 2 + pad / fs.width + th / (2 * fs.width) := by
        have h1 : 0 < (par.x1 - par.x0) / 2 := by linarith
        have h2 : 0 ≤ pad / fs.width := div_nonneg hpad (le_of_lt hfw)
        have h3 : 0 < th / (2 * fs.width) := div_pos hth (by linarith)
        linarith
      have hdx : cbDx (updateColorbarPos fs par ⟨.right, th, pad⟩) [par]
          = (par.x1 - par.x0) / 2 + pad / fs.width + th / (2 * fs.width) := by
        rw [hcax]
        simp only [cbDx, bboxUnion_singleton, bboxCx, BboxQ.width, BboxQ.height]
        ring
      have hdy : cbDy (updateColorbarPos fs par ⟨.right, th, pad⟩) [par] = 0 := by
        rw [hcax]
        simp only [cbDy, bboxUnion_singleton, bboxCy, BboxQ.width, BboxQ.height]
        ring
      have hloc : getColorbarLocation (updateColorbarPos fs par ⟨.right, th, pad⟩)
          [par] = .right := by
        rw [getColorbarLocation_def, hdx, hdy, abs_zero, abs_of_pos hval,
          if_pos hval, if_pos hval]
      rw [deriveColorbarRec_of_right fs _ par hloc, hcax]
      simp only [Prod.mk.injEq, BboxQ.width, BboxQ.height]
      refine ⟨trivial, ?_, ?_⟩ <;> (field_simp; try ring)
  | left =>
      have hcax : updateColorbarPos fs par ⟨.left, th, pad⟩ =
          ⟨par.x0 - pad / fs.width - th / fs.width, par.y0,
           par.x0 - pad / fs.width - th / fs.width + th / fs.width,
           par.y0 + par.height⟩ := rfl
      have hval : 0 < (par.x1 - par.x0) / 2 + pad / fs.width + th / (2 * fs.width) := by
        have h1 : 0 < (par.x1 - par.x0) / 2 := by linarith
        have h2 : 0 ≤ pad / fs.width := div_nonneg hpad (le_of_lt hfw)
        have h3 : 0 < th / (2 * fs.width) := div_pos hth (by linarith)
        linarith
      have hdx : cbDx (updateColorbarPos fs par ⟨.left, th, pad⟩) [par]
          = -((par.x1 - par.x0) / 2 + pad / fs.width + th / (2 * fs.width)) := by
        rw [hcax]
        simp only [cbDx, bboxUnion_singleton, bboxCx, BboxQ.width, BboxQ.height]
        ring
      have hdy : cbDy (updateColorbarPos fs par ⟨.left, th, pad⟩) [par] = 0 := by
        rw [hcax]
        simp only [cbDy, bboxUnion_singleton, bboxCy, BboxQ.width, BboxQ.height]
        ring
      have hloc : getColorbarLocation (updateColorbarPos fs par ⟨.left, th, pad⟩)
          [par] = .left := by
        rw [getColorbarLocation_def, hdx, hdy, abs_zero, abs_neg, abs_of_pos hval,
          if_pos hval, if_neg (by linarith)]
      rw [deriveColorbarRec_of_left fs _ par hloc, hcax]
      simp only [Prod.mk.injEq, BboxQ.width, BboxQ.height]
      refine ⟨trivial, ?_, ?_⟩ <;> (field_simp; try ring)
  | top =>
      have hcax : updateColorbarPos fs par ⟨.top, th, pad⟩ =
          ⟨par.x0, par.y1 + pad / fs.height,
           par.x0 + par.width, par.y1 + pad / fs.height + th / fs.height⟩ := rfl
      have hval : 0 < (par.y1 - par.y0) / 2 + pad / fs.height + th / (2 * fs.height) := by
        have h1 : 0 < (par.y1 - par.y0) / 2 := by linarith
        have h2 : 0 ≤ pad / fs.height := div_nonneg hpad (le_of_lt hfh)
        have h3 : 0 < th / (2 * fs.height) := div_pos hth (by linarith)
        linarith
      have hdx : cbDx (updateColorbarPos fs par ⟨.top, th, pad⟩) [par] = 0 := by
        rw [hcax]
        simp only [cbDx, bboxUnion_singleton, bboxCx, BboxQ.width, BboxQ.height]
        ring
      have hdy : cbDy (updateColorbarPos fs par ⟨.top, th, pad⟩) [par]
          = (par.y1 - par.y0) / 2 + pad / fs.height + th / (2 * fs.height) := by
        rw [hcax]
        simp only [cbDy, bboxUnion_singleton, bboxCy, BboxQ.width, BboxQ.height]
        ring
      have hloc : getColorbarLocation (updateColorbarPos fs par ⟨.top, th, pad⟩)
          [par] = .top := by
        rw [getColorbarLocation_def, hdx, hdy, abs_zero, abs_of_pos hval,
          if_neg (not_lt.mpr (le_of_lt hval)), if_pos hval]
      rw [deriveColorbarRec_of_top fs _ par hloc, hcax]
      simp only [Prod.mk.injEq, BboxQ.width, BboxQ.height]
      refine ⟨trivial, ?_, ?_⟩ <;> (field_simp; try ring)
  | bottom =>
      have hcax : updateColorbarPos fs par ⟨.bottom, th, pad⟩ =
          ⟨par.x0, par.y0 - pad / fs.height - th / fs.height,
           par.x0 + par.width,
           par.y0 - pad / fs.height - th / fs.height + th / fs.height⟩ := rfl
      have hval : 0 < (par.y1 - par.y0) / 2 + pad / fs.height + th / (2 * fs.height) := by
        have h1 : 0 < (par.y1 - par.y0) / 2 := by linarith
        have h2 : 0 ≤ pad / fs.height := div_nonneg hpad (le_of_lt hfh)
        have h3 : 0 < th / (2 * fs.height) := div_pos hth (by linarith)
        linarith
      have hdx : cbDx (updateColorbarPos fs par ⟨.bottom, th, pad⟩) [par] = 0 := by
        rw [hcax]
        simp only [cbDx, bboxUnion_singleton, bboxCx, BboxQ.width, BboxQ.height]
        ring
      have hdy : cbDy (updateColorbarPos fs par ⟨.bottom, th, pad⟩) [par]
          = -((par.y1 - par.y0) / 2 + pad / fs.height + th / (2 * fs.height)) := by
        rw [hcax]
        simp only [cbDy, bboxUnion_singleton, bboxCy, BboxQ.width, BboxQ.height]
        ring
      have hloc : getColorbarLocation (updateColorbarPos fs par ⟨.bottom, th, pad⟩)
          [par] = .bottom := by
        rw [getColorbarLocation_def, hdx, hdy, abs_zero, abs_neg, abs_of_pos hval,
          if_neg (not_lt.mpr (le_of_lt hval)), if_neg (by linarith)]
      rw [deriveColorbarRec_of_bottom fs _ par hloc, hcax]
      simp only [Prod.mk.injEq, BboxQ.width, BboxQ.height]
      refine ⟨trivial, ?_, ?_⟩ <;> (field_simp; try ring)

/-- Witness for C8: a concrete right-hand colorbar record (thickness 1/2
inch, pad 1/4 inch) around a concrete parent panel survives the
reposition/re-derive round trip. -/
theorem colorbar_record_preserved_witness :
    deriveColorbarRec ⟨4, 3⟩
      (updateColorbarPos ⟨4, 3⟩ ⟨1/4, 1/4, 3/4, 3/4⟩ ⟨.right, 1/2, 1/4⟩)
      ⟨1/4, 1/4, 3/4, 3/4⟩ = (.right, 1/2, 1/4) :=
  colorbar_record_preserved ⟨4, 3⟩ ⟨1/4, 1/4, 3/4, 3/4⟩ .right (1/2) (1/4)
    (by norm_num) (by norm_num) (by norm_num) (by norm_num) (by norm_num)
    (by norm_num)

/-- Unfolding lemma for `collectSpecs` on a cons cell. -/
theorem collectSpecs_cons (a : AxesM) (rest : List AxesM) :
    collectSpecs (a :: rest) =
      match a.subplotspec with
      | none => .error .noSubplotSpec
      | some s => (collectSpecs rest).map (fun l => (a, s) :: l) := rfl

/-- Unfolding lemma for `checkSpecs` on a cons cell. -/
theorem checkSpecs_cons (gs0 : ℕ) (q : AxesM × SubplotSpecM)
    (qs : List (AxesM × SubplotSpecM)) :
    checkSpecs gs0 (q :: qs) =
      if q.2.gs ≠ gs0 then .error .multipleGridSpecs
      else if q.2.num1 ≠ q.2.num2 then .error .fancyGridSpec
      else checkSpecs gs0 qs := rfl

/-- A missing `SubplotSpec` makes the spec-collection loop raise. -/
theorem collectSpecs_error_of_none (l : List AxesM)
    (h : ∃ p ∈ l, p.subplotspec = none) :
    collectSpecs l = .error .noSubplotSpec := by
  induction l with
  | nil =>
      rcases h with ⟨p, hp, _⟩
      cases hp
  | cons a rest ih =>
      cases hsa : a.subplotspec with
      | none => rw [collectSpecs_cons, hsa]
      | some s =>
          have hr : ∃ p ∈ rest, p.subplotspec = none := by
            rcases h with ⟨p, hp, hnone⟩
            rcases List.mem_cons.mp hp with rfl | hmem
            · rw [hsa] at hnone; cases hnone
            · exact ⟨p, hmem, hnone⟩
          rw [collectSpecs_cons, hsa, ih hr]
          rfl

/-- When every axes carries a `SubplotSpec`, the collection loop succeeds
and pairs each axes with its spec in order. -/
theorem collectSpecs_ok_of_all_some (l : List AxesM)
    (h : ∀ p ∈ l, p.subplotspec ≠ none) :
    ∃ specs, collectSpecs l = .ok specs ∧ specs.map Prod.fst = l ∧
      ∀ pr ∈ specs, pr.1.subplotspec = some pr.2 := by
  induction l with
  | nil =>
      exact ⟨[], rfl, rfl, fun pr hpr => absurd hpr (List.not_mem_nil pr)⟩
  | cons a rest ih =>
      obtain ⟨s, hs⟩ : ∃ s, a.subplotspec = some s := by
        cases hsp : a.subplotspec with
        | none => exact absurd hsp (h a (List.mem_cons_self a rest))
        | some s => exact ⟨s, rfl⟩
      obtain ⟨specs, hok, hmap, hcorr⟩ :=
        ih (fun p hp => h p (List.mem_cons_of_mem a hp))
      refine ⟨(a, s) :: specs, ?_, ?_, ?_⟩
      · rw [collectSpecs_cons, hs, hok]
        rfl
      · simp [hmap]
      · intro pr hpr
        rcases List.mem_cons.mp hpr with rfl | hmem
        · exact hs
        · exact hcorr pr hmem

/-- A spec from a different `GridSpec` makes the check loop raise. -/
theorem checkSpecs_error_of_gs (gs0 : ℕ) (specs : List (AxesM × SubplotSpecM))
    (h : ∃ pr ∈ specs, pr.2.gs ≠ gs0) :
    ∃ e, checkSpecs gs0 specs = .error e := by
  induction specs with
  | nil =>
      rcases h with ⟨pr, hpr, _⟩
      cases hpr
  | cons q qs ih =>
      by_cases h1 : q.2.gs ≠ gs0
      · exact ⟨.multipleGridSpecs, by rw [checkSpecs_cons, if_pos h1]⟩
      · by_cases h2 : q.2.num1 ≠ q.2.num2
        · exact ⟨.fancyGridSpec, by rw [checkSpecs_cons, if_neg h1, if_pos h2]⟩
        · have hr : ∃ pr ∈ qs, pr.2.gs ≠ gs0 := by
            rcases h with ⟨pr, hpr, hne⟩
            rcases List.mem_cons.mp hpr with rfl | hmem
            · exact absurd hne h1
            · exact ⟨pr, hmem, hne⟩
          obtain ⟨e, he⟩ := ih hr
          exact ⟨e, by rw [checkSpecs_cons, if_neg h1, if_neg h2, he]⟩

/-- A multi-cell spec (`num1 != num2`) makes the check loop raise. -/
theorem checkSpecs_error_of_num (gs0 : ℕ) (specs : List (AxesM × SubplotSpecM))
    (h : ∃ pr ∈ specs, pr.2.num1 ≠ pr.2.num2) :
    ∃ e, checkSpecs gs0 specs = .error e := by
  induction specs with
  | nil =>
      rcases h with ⟨pr, hpr, _⟩
      cases hpr
  | cons q qs ih =>
      by_cases h1 : q.2.gs ≠ gs0
      · exact ⟨.multipleGridSpecs, by rw [checkSpecs_cons, if_pos h1]⟩
      · by_cases h2 : q.2.num1 ≠ q.2.num2
        · exact ⟨.fancyGridSpec, by rw [checkSpecs_cons, if_neg h1, if_pos h2]⟩
        · have hr : ∃ pr ∈ qs, pr.2.num1 ≠ pr.2.num2 := by
            rcases h with ⟨pr, hpr, hne⟩
            rcases List.mem_cons.mp hpr with rfl | hmem
            · exact absurd hne h2
            · exact ⟨pr, hmem, hne⟩
          obtain ⟨e, he⟩ := ih hr
          exact ⟨e, by rw [checkSpecs_cons, if_neg h1, if_neg h2, he]⟩

/-- When every spec shares the `GridSpec` and spans one cell, the check
loop succeeds. -/
theorem checkSpecs_ok (gs0 : ℕ) (specs : List (AxesM × SubplotSpecM))
    (h : ∀ pr ∈ specs, pr.2.gs = gs0 ∧ pr.2.num1 = pr.2.num2) :
    checkSpecs gs0 specs = .ok () := by
  induction specs with
  | nil => rfl
  | cons q qs ih =>
      obtain ⟨h1, h2⟩ := h q (List.mem_cons_self q qs)
      rw [checkSpecs_cons, if_neg (not_not_intro h1), if_neg (not_not_intro h2)]
      exact ih (fun pr hpr => h pr (List.mem_cons_of_mem q hpr))

/-- Helper: once the cell-filling fold has stored `p`, it stays `p` as long
as every later match is `p` itself. -/
theorem cellLookup_foldl_const (gs0 num : ℕ) (p : AxesM)
    (l : List (AxesM × SubplotSpecM))
    (h : ∀ pr ∈ l, (pr.2.gs = gs0 ∧ pr.2.num1 = num ∧ pr.2.num2 = num) → pr.1 = p) :
    l.foldl
      (fun acc pr =>
        if pr.2.gs = gs0 ∧ pr.2.num1 = num ∧ pr.2.num2 = num then some pr.1 else acc)
      (some p) = some p := by
  induction l with
  | nil => rfl
  | cons q qs ih =>
      rw [List.foldl_cons]
      by_cases hc : q.2.gs = gs0 ∧ q.2.num1 = num ∧ q.2.num2 = num
      · rw [if_pos hc, h q (List.mem_cons_self q qs) hc]
        exact ih (fun pr hpr hcond => h pr (List.mem_cons_of_mem q hpr) hcond)
      · rw [if_neg hc]
        exact ih (fun pr hpr hcond => h pr (List.mem_cons_of_mem q hpr) hcond)

/-- Helper: the cell-filling fold returns the panel stored at a cell when
that panel occupies the cell and is the only one matching it. -/
theorem cellLookup_eq (gs0 num : ℕ) (specs : List (AxesM × SubplotSpecM))
    (p : AxesM) (sp : SubplotSpecM)
    (hmem : (p, sp) ∈ specs)
    (hc : sp.gs = gs0 ∧ sp.num1 = num ∧ sp.num2 = num)
    (huniq : ∀ pr ∈ specs,
      (pr.2.gs = gs0 ∧ pr.2.num1 = num ∧ pr.2.num2 = num) → pr.1 = p) :
    cellLookup specs gs0 num = some p := by
  induction specs with
  | nil => cases hmem
  | cons q qs ih =>
      unfold cellLookup
      rw [List.foldl_cons]
      by_cases hcq : q.2.gs = gs0 ∧ q.2.num1 = num ∧ q.2.num2 = num
      · rw [if_pos hcq, huniq q (List.mem_cons_self q qs) hcq]
        exact cellLookup_foldl_const gs0 num p qs
          (fun pr hpr hcond => huniq pr (List.mem_cons_of_mem q hpr) hcond)
      · rw [if_neg hcq]
        have hmem' : (p, sp) ∈ qs := by
          rcases List.mem_cons.mp hmem with heq | hmem'
          · exact absurd (by rw [← heq]; exact hc) hcq
          · exact hmem'
        exact ih hmem' (fun pr hpr hcond => huniq pr (List.mem_cons_of_mem q hpr) hcond)

/-- Helper: recover the (axes, spec) pair in the collected list from
membership of the axes in the filtered list. -/
theorem pair_mem_specs (specs : List (AxesM × SubplotSpecM)) (l : List AxesM)
    (hmap : specs.map Prod.fst = l)
    (hcorr : ∀ pr ∈ specs, pr.1.subplotspec = some pr.2)
    (p : AxesM) (sp : SubplotSpecM) (hp : p ∈ l)
    (hsp : p.subplotspec = some sp) : (p, sp) ∈ specs := by
  subst hmap
  rcases List.mem_map.mp hp with ⟨pr, hpr, hfst⟩
  rcases pr with ⟨a, b⟩
  have hco := hcorr (a, b) hpr
  simp only at hfst hco
  subst hfst
  rw [hsp] at hco
  have hb : sp = b := by
    injection hco
  rw [hb]
  exact hpr

/-- C6 (counterexample): two non-colorbar panels occupying the same cell
(0, 0) of the same 1x1 grid trip none of the three structural-error
conditions, yet the extractor returns a grid in which only the later
panel appears, so the earlier panel (id 0) is not placed at its
(row, column). -/
theorem grid_extraction_overwrite_counterexample :
    getSortedAxesGrid
        [⟨0, false, some ⟨0, 1, 1, 0, 0⟩⟩, ⟨1, false, some ⟨0, 1, 1, 0, 0⟩⟩]
      = .ok [[some ⟨1, false, some ⟨0, 1, 1, 0, 0⟩⟩]] ∧
    (some (⟨1, false, some ⟨0, 1, 1, 0, 0⟩⟩ : AxesM)
      ≠ some (⟨0, false, some ⟨0, 1, 1, 0, 0⟩⟩ : AxesM)) := by
  refine ⟨rfl, ?_⟩
  decide

/-- C6 (amended): grid extraction raises a structural error when a
non-colorbar panel lacks a cell descriptor, when two panels reference
different grid specifications, or when a panel's descriptor spans more
than one cell; when none of these hold and additionally the panels
occupy pairwise-distinct cells, it returns a grid of shape
(nrows, ncols) taken from the shared specification with each panel
placed at its (row, column) = (num1 / ncols, num1 % ncols); when two
panels share a cell, the later one in iteration order occupies it. -/
theorem grid_extraction_amended (axsAll : List AxesM) (gs0 nr nc : ℕ) :
    ((∃ p ∈ nonColorbarAxes axsAll, p.subplotspec = none) →
      getSortedAxesGrid axsAll = .error .noSubplotSpec) ∧
    ((∃ p ∈ nonColorbarAxes axsAll, ∃ q ∈ nonColorbarAxes axsAll,
        ∃ sp sq, p.subplotspec = some sp ∧ q.subplotspec = some sq ∧ sp.gs ≠ sq.gs) →
      ∃ e, getSortedAxesGrid axsAll = .error e) ∧
    ((∃ p ∈ nonColorbarAxes axsAll, ∃ s, p.subplotspec = some s ∧ s.num1 ≠ s.num2) →
      ∃ e, getSortedAxesGrid axsAll = .error e) ∧
    (nonColorbarAxes axsAll ≠ [] →
     (∀ p ∈ nonColorbarAxes axsAll, ∃ s, p.subplotspec = some s ∧
        s.gs = gs0 ∧ s.gsNrows = nr ∧ s.gsNcols = nc ∧ s.num1 = s.num2 ∧
        s.num1 < nr * nc) →
     (∀ p ∈ nonColorbarAxes axsAll, ∀ q ∈ nonColorbarAxes axsAll,
        ∀ sp sq, p.subplotspec = some sp → q.subplotspec = some sq →
        sp.num1 = sq.num1 → p = q) →
     ∃ g, getSortedAxesGrid axsAll = .ok g ∧ g.length = nr ∧
       (∀ row ∈ g, row.length = nc) ∧
       (∀ p ∈ nonColorbarAxes axsAll, ∀ s, p.subplotspec = some s →
         ∃ row, g.get? (s.num1 / nc) = some row ∧
           row.get? (s.num1 % nc) = some (some p))) := by
  refine ⟨?_, ?_, ?_, ?_⟩
  · intro h
    simp only [getSortedAxesGrid]
    rw [collectSpecs_error_of_none _ h]
  · intro h
    by_cases hall : ∀ r ∈ nonColorbarAxes axsAll, r.subplotspec ≠ none
    · obtain ⟨specs, hok, hmap, hcorr⟩ := collectSpecs_ok_of_all_some _ hall
      rcases h with ⟨p, hp, q, hq, sp, sq, hsp, hsq, hne⟩
      have hpmem := pair_mem_specs specs _ hmap hcorr p sp hp hsp
      have hqmem := pair_mem_specs specs _ hmap hcorr q sq hq hsq
      cases hspecs : specs with
      | nil =>
          rw [hspecs] at hpmem
          cases hpmem
      | cons pr0 rest =>
          obtain ⟨a0, s0⟩ := pr0
          have hgswit : ∃ pr ∈ specs, pr.2.gs ≠ s0.gs := by
            by_cases hpg : sp.gs = s0.gs
            · exact ⟨(q, sq), hqmem, by simpa [← hpg] using hne.symm⟩
            · exact ⟨(p, sp), hpmem, hpg⟩
          rw [hspecs] at hgswit
          obtain ⟨e, he⟩ := checkSpecs_error_of_gs s0.gs _ hgswit
          refine ⟨e, ?_⟩
          simp only [getSortedAxesGrid]
          rw [hok, hspecs]
          dsimp only
          rw [he]
    · push_neg at hall
      obtain ⟨r, hr, hrnone⟩ := hall
      refine ⟨.noSubplotSpec, ?_⟩
      simp only [getSortedAxesGrid]
      rw [collectSpecs_error_of_none _ ⟨r, hr, hrnone⟩]
  · intro h
    by_cases hall : ∀ r ∈ nonColorbarAxes axsAll, r.subplotspec ≠ none
    · obtain ⟨specs, hok, hmap, hcorr⟩ := collectSpecs_ok_of_all_some _ hall
      rcases h with ⟨p, hp, s, hsp, hne⟩
      have hpmem := pair_mem_specs specs _ hmap hcorr p s hp hsp
      cases hspecs : specs with
      | nil =>
          rw [hspecs] at hpmem
          cases hpmem
      | cons pr0 rest =>
          obtain ⟨a0, s0⟩ := pr0
          have hnumwit : ∃ pr ∈ (a0, s0) :: rest, pr.2.num1 ≠ pr.2.num2 := by
            rw [← hspecs]
            exact ⟨(p, s), hpmem, hne⟩
          obtain ⟨e, he⟩ := checkSpecs_error_of_num s0.gs _ hnumwit
          refine ⟨e, ?_⟩
          simp only [getSortedAxesGrid]
          rw [hok, hspecs]
          dsimp only
          rw [he]
    · push_neg at hall
      obtain ⟨r, hr, hrnone⟩ := hall
      refine ⟨.noSubplotSpec, ?_⟩
      simp only [getSortedAxesGrid]
      rw [collectSpecs_error_of_none _ ⟨r, hr, hrnone⟩]
  · intro hne hall hdist
    have hsome : ∀ r ∈ nonColorbarAxes axsAll, r.subplotspec ≠ none := by
      intro r hr hnone
      obtain ⟨s, hs, _⟩ := hall r hr
      rw [hnone] at hs
      cases hs
    obtain ⟨specs, hok, hmap, hcorr⟩ := collectSpecs_ok_of_all_some _ hsome
    cases hspecs : specs with
    | nil =>
        rw [hspecs] at hmap
        exact absurd hmap.symm hne
    | cons pr0 rest =>
        obtain ⟨a0, s0⟩ := pr0
        have ha0mem : a0 ∈ nonColorbarAxes axsAll := by
          rw [← hmap, hspecs]
          exact List.mem_map_of_mem Prod.fst (List.mem_cons_self _ _)
        have hs0spec : a0.subplotspec = some s0 := by
          have := hcorr (a0, s0) (by rw [hspecs]; exact List.mem_cons_self _ _)
          exact this
        obtain ⟨s0', hs0', hgs0, hnr0, hnc0, _, _⟩ := hall a0 ha0mem
        have hs0eq : s0' = s0 := by
          rw [hs0spec] at hs0'
          injection hs0'.symm
        rw [hs0eq] at hgs0 hnr0 hnc0
        have hcheck : checkSpecs s0.gs specs = .ok () := by
          refine checkSpecs_ok s0.gs specs (fun pr hpr => ?_)
          have hprmem : pr.1 ∈ nonColorbarAxes axsAll := by
            rw [← hmap]
            exact List.mem_map_of_mem Prod.fst hpr
          obtain ⟨s', hs', hgs', _, _, hnum', _⟩ := hall pr.1 hprmem
          have : s' = pr.2 := by
            have hc := hcorr pr hpr
            rw [hc] at hs'
            injection hs'.symm
          rw [this] at hgs' hnum'
          exact ⟨by rw [hgs', hgs0], hnum'⟩
        refine ⟨(List.range s0.gsNrows).map (fun row =>
          (List.range s0.gsNcols).map (fun col =>
            cellLookup specs s0.gs (row * s0.gsNcols + col))), ?_, ?_, ?_, ?_⟩
        · simp only [getSortedAxesGrid]
          rw [hok, hspecs]
          rw [hspecs] at hcheck
          dsimp only
          rw [hcheck]
        · simp [hnr0]
        · intro row hrow
          rcases List.mem_map.mp hrow with ⟨i, _, hi⟩
          rw [← hi]
          simp [hnc0]
        · intro p hp s hsp
          have hpmem := pair_mem_specs specs _ hmap hcorr p s hp hsp
          obtain ⟨s', hs', hgs', _, _, hnum', hlt'⟩ := hall p hp
          have hseq : s' = s := by
            rw [hsp] at hs'
            injection hs'.symm
          rw [hseq] at hgs' hnum' hlt'
          have hncpos : 0 < nc := by
            rcases Nat.eq_zero_or_pos nc with h0 | h
            · rw [h0, Nat.mul_zero] at hlt'
              exact absurd hlt' (Nat.not_lt_zero _)
            · exact h
          have hrowlt : s.num1 / nc < nr := (Nat.div_lt_iff_lt_mul hncpos).mpr hlt'
          have hcollt : s.num1 % nc < nc := Nat.mod_lt _ hncpos
          have hcell : cellLookup specs s0.gs ((s.num1 / nc) * s0.gsNcols +
              s.num1 % nc) = some p := by
            rw [hnc0]
            have hrc : s.num1 / nc * nc + s.num1 % nc = s.num1 := by
              rw [Nat.mul_comm (s.num1 / nc) nc]
              exact Nat.div_add_mod s.num1 nc
            rw [hrc]
            refine cellLookup_eq s0.gs s.num1 specs p s hpmem
              ⟨by rw [hgs', hgs0], rfl, hnum'.symm⟩ (fun pr hpr hcond => ?_)
            have hprmem : pr.1 ∈ nonColorbarAxes axsAll := by
              rw [← hmap]
              exact List.mem_map_of_mem Prod.fst hpr
            exact hdist pr.1 hprmem p hp pr.2 s (hcorr pr hpr) hsp hcond.2.1
          refine ⟨(List.range s0.gsNcols).map (fun col =>
            cellLookup specs s0.gs (s.num1 / nc * s0.gsNcols + col)), ?_, ?_⟩
          · rw [List.get?_map, List.get?_range (by rw [hnr0]; exact hrowlt)]
            rfl
          · rw [List.get?_map, List.get?_range (by rw [hnc0]; exact hcollt)]
            simp only [Option.map_some']
            rw [hcell]

/-- Witness for C1: with an identity pass, a 6-inch-wide figure and
`max_figwidth = 5`, the solve raises the size-constraint error. -/
theorem solve_width_check_iff_witness :
    applySolve id 2 (5 : ℚ) ⟨⟨6, 4⟩, []⟩ = .error .figureTooWide :=
  ((solve_width_check_iff id 2 5 ⟨⟨6, 4⟩, []⟩).1).mpr
    (by norm_num [Function.iterate_id, round5, roundHalfEven])

/-- Witness for C3: the concrete right-hand configuration, via the
classification theorem. -/
theorem colorbar_location_classification_witness :
    getColorbarLocation ⟨17/20, 9/20, 19/20, 11/20⟩ [⟨1/4, 1/4, 3/4, 3/4⟩]
      = .right :=
  colorbar_location_classification.2.1

/-- Witness for C6: a 1x2 grid with two panels in distinct cells is
extracted into a 1x2 array with each panel at its cell. -/
theorem grid_extraction_amended_witness :
    ∃ g, getSortedAxesGrid
        [⟨0, false, some ⟨0, 1, 2, 0, 0⟩⟩, ⟨1, false, some ⟨0, 1, 2, 1, 1⟩⟩]
      = .ok g ∧ g.length = 1 ∧ (∀ row ∈ g, row.length = 2) ∧
      (∀ p ∈ nonColorbarAxes
          [⟨0, false, some ⟨0, 1, 2, 0, 0⟩⟩, ⟨1, false, some ⟨0, 1, 2, 1, 1⟩⟩],
        ∀ s, p.subplotspec = some s →
          ∃ row, g.get? (s.num1 / 2) = some row ∧
            row.get? (s.num1 % 2) = some (some p)) :=
  (grid_extraction_amended
      [⟨0, false, some ⟨0, 1, 2, 0, 0⟩⟩, ⟨1, false, some ⟨0, 1, 2, 1, 1⟩⟩]
      0 1 2).2.2.2
    (by decide)
    (by
      intro p hp
      fin_cases hp
      · exact ⟨⟨0, 1, 2, 0, 0⟩, rfl, rfl, rfl, rfl, rfl, by norm_num⟩
      · exact ⟨⟨0, 1, 2, 1, 1⟩, rfl, rfl, rfl, rfl, rfl, by norm_num⟩)
    (by
      intro p hp q hq sp sq hsp hsq hnum
      fin_cases hp <;> fin_cases hq <;> simp_all <;>
        (subst hsp; subst hsq; simp at hnum))

end MplUtils
